import Mathlib

set_option autoImplicit false

universe u v

/-!
Shallow embedding of the `nest-guard` crate (`src/src/lib.rs`).

The crate bundles a view (a `Ref`, `RefMut`, lock guard, or strong handle)
together with the owner that produced it into a `Nested` struct, so the pair
can outlive the temporary owner expression.  The wrapped standard-library
primitives (`RefCell`, `Rc`/`Arc` weak references, `Mutex`, `RwLock`) are
external collaborators; they are modelled here from the spec's description of
their contracts, over small functional heaps.  The `nest_*` composition
operations are translated from the source.  Rust's ownership semantics are made
explicit: each composition operation consumes its receiver, and on outcome arms
that do not move the receiver into the result the receiver is dropped, which is
rendered as applying the receiver's `drop` action to the heap.
-/

/-- Bundle of a view and the owner that keeps it alive, translated from
`struct Nested` in the source.  The field order matches the source declaration
order: `inner` (the view) is declared before `outer` (the owner), so on
destruction the view is dropped first, before the owner. -/
structure Nested (View : Type u) (Owner : Type v) where
  inner : View
  outer : Owner
deriving DecidableEq

/-- Deref of a bundle forwards to the inner view, translated from
`impl Deref for Nested` (`self.inner.deref()`). -/
def Nested.derefVia {View Owner Target : Type} (derefView : View → Target)
    (n : Nested View Owner) : Target :=
  derefView n.inner

/-- Mutable deref of a bundle forwards to the inner view, translated from
`impl DerefMut for Nested` (`self.inner.deref_mut()`). -/
def Nested.derefMutVia {View Owner Target : Type} (derefMutView : View → Target)
    (n : Nested View Owner) : Target :=
  derefMutView n.inner

/-- Pointwise update of a functional heap at one address. -/
def hupdate {α : Type} (h : Nat → α) (a : Nat) (c : α) : Nat → α :=
  fun i => if i = a then c else h i

/-! ## Dynamic-borrow-checked cell family (`mod cell`) -/

/-- Contents stored in a checked cell: either a plain value or another cell
(`RefCell<RefCell<...>>` nesting). -/
inductive CVal : Type
  | int (n : Int)
  | cellRef (a : Nat)
deriving DecidableEq

/-- Modelled from the spec: the dynamic-borrow-checked mutable cell, with its
outstanding-borrow bookkeeping.  `borrowFlag = 0` means no outstanding view,
`borrowFlag > 0` counts outstanding shared views, `borrowFlag < 0` marks an
outstanding exclusive view. -/
structure Cell where
  borrowFlag : Int
  contents : CVal
deriving DecidableEq

/-- Heap of checked cells, addressed by naturals. -/
abbrev CellHeap := Nat → Cell

/-- Shared or exclusive view into the cell at address `cell`; plays the role of
`Ref` (`isMut = false`) and `RefMut` (`isMut = true`). -/
structure CellRef where
  cell : Nat
  isMut : Bool
deriving DecidableEq

/-- Value-level dynamic borrow conflict for a shared acquire. -/
inductive BorrowError : Type
  | mk
deriving DecidableEq

/-- Value-level dynamic borrow conflict for an exclusive acquire. -/
inductive BorrowMutError : Type
  | mk
deriving DecidableEq

/-- Modelled from the spec: `RefCell::try_borrow`.  Fails exactly when an
exclusive view is outstanding; on success increments the shared count. -/
def tryBorrowCell (h : CellHeap) (a : Nat) : Except BorrowError (CellRef × CellHeap) :=
  let c := h a
  if c.borrowFlag < 0 then .error .mk
  else .ok (⟨a, false⟩, hupdate h a { c with borrowFlag := c.borrowFlag + 1 })

/-- Modelled from the spec: `RefCell::borrow`, the non-fallible variant; panics
(returns `none`) exactly where `try_borrow` reports a conflict. -/
def borrowCell (h : CellHeap) (a : Nat) : Option (CellRef × CellHeap) :=
  match tryBorrowCell h a with
  | .ok rh => some rh
  | .error _ => none

/-- Modelled from the spec: `RefCell::try_borrow_mut`.  Fails exactly when any
view is outstanding; on success marks the exclusive view. -/
def tryBorrowMutCell (h : CellHeap) (a : Nat) : Except BorrowMutError (CellRef × CellHeap) :=
  let c := h a
  if c.borrowFlag ≠ 0 then .error .mk
  else .ok (⟨a, true⟩, hupdate h a { c with borrowFlag := -1 })

/-- Modelled from the spec: `RefCell::borrow_mut`, the non-fallible variant. -/
def borrowMutCell (h : CellHeap) (a : Nat) : Option (CellRef × CellHeap) :=
  match tryBorrowMutCell h a with
  | .ok rh => some rh
  | .error _ => none

/-- Reading through a cell view yields the contents of the borrowed cell. -/
def CellRef.read (r : CellRef) (h : CellHeap) : CVal :=
  (h r.cell).contents

/-- Writing through an exclusive cell view replaces the borrowed cell's
contents; only available when the view is exclusive (`DerefMut`). -/
def CellRef.write (r : CellRef) (v : CVal) (h : CellHeap) : Option CellHeap :=
  if r.isMut then some (hupdate h r.cell { h r.cell with borrowFlag := (h r.cell).borrowFlag, contents := v })
  else none

/-- Modelled from the spec: releasing a cell view restores the cell's
outstanding-borrow bookkeeping (decrement a shared count, clear an exclusive
mark). -/
def CellRef.drop (r : CellRef) (h : CellHeap) : CellHeap :=
  let c := h r.cell
  hupdate h r.cell { c with borrowFlag := if r.isMut then c.borrowFlag + 1 else c.borrowFlag - 1 }

/-- Owner shapes the cell composition operations are applied to: a plain
reference to a cell (`&RefCell<T>`), a native view used as the root owner
(`Ref`/`RefMut` from a plain `borrow`), or a `Nested` bundle produced by a
previous composition (the trait `NestedRefCell` is implemented for all of
these, since they all deref to a `RefCell`). -/
inductive CellChain : Type
  | bareCell (a : Nat)
  | bareRef (r : CellRef)
  | link (r : CellRef) (outer : CellChain)
deriving DecidableEq

/-- View of a `Nested` bundle as a chain link. -/
def CellChain.ofNested (b : Nested CellRef CellChain) : CellChain :=
  .link b.inner b.outer

/-- Address of the cell a chain owner derefs to (the `Deref<Target = RefCell<T>>`
bound of the trait): a plain reference derefs to its cell, while a view or a
bundle derefs to its target contents, which must itself be a cell. -/
def CellChain.targetCell (c : CellChain) (h : CellHeap) : Option Nat :=
  match c with
  | .bareCell a => some a
  | .bareRef r =>
      match (h r.cell).contents with
      | .cellRef b => some b
      | _ => none
  | .link r _ =>
      match (h r.cell).contents with
      | .cellRef b => some b
      | _ => none

/-- Dropping a chain owner: a plain reference releases nothing; a view or a
bundle releases its view first and then, recursively, its owner. -/
def CellChain.drop (c : CellChain) (h : CellHeap) : CellHeap :=
  match c with
  | .bareCell _ => h
  | .bareRef r => r.drop h
  | .link r outer => outer.drop (r.drop h)

/-- Dereferencing a chain when it is used as a view (`*z` on a `Ref` or on a
bundle): reads through the inner view.  A plain cell reference is not a view. -/
def CellChain.readv (c : CellChain) (h : CellHeap) : Option CVal :=
  match c with
  | .bareCell _ => none
  | .bareRef r => some (r.read h)
  | .link r _ => some (r.read h)

/-- Writing through a chain used as a mutable view (`*z = v`). -/
def CellChain.writev (c : CellChain) (v : CVal) (h : CellHeap) : Option CellHeap :=
  match c with
  | .bareCell _ => none
  | .bareRef r => r.write v h
  | .link r _ => r.write v h

/-- Inner view of a chain used as a view (`Ref`/`RefMut` at the head). -/
def CellChain.innerView : CellChain → Option CellRef
  | .bareCell _ => none
  | .bareRef r => some r
  | .link r _ => some r

/-- Outcome of a cell composition operation.  `err` carries the heap after the
consumed receiver has been dropped; `panicked` is the unrecoverable abort;
`badDeref` marks an untypeable chain (the deref target is not a cell), which
cannot arise from well-typed Rust. -/
inductive CellNestResult (ε : Type) : Type
  | ok (c : CellChain) (h : CellHeap)
  | err (e : ε) (h : CellHeap)
  | panicked
  | badDeref

/-- Value seen through the bundle produced by a successful composition. -/
def CellNestResult.readv {ε : Type} : CellNestResult ε → Option CVal
  | .ok c h => c.readv h
  | _ => none

/-- Whether a composition outcome is a success. -/
def CellNestResult.isOk {ε : Type} : CellNestResult ε → Bool
  | .ok _ _ => true
  | _ => false

/-- Heap state returned with a value-level error, observed at one cell. -/
def CellNestResult.errHeapAt {ε : Type} : CellNestResult ε → Nat → Option Cell
  | .err _ h, a => some (h a)
  | _, _ => none

/-- Translated from `NestedRefCell::nest_borrow`: deref the receiver to its
cell, acquire a shared view with the native non-fallible borrow, and bundle the
view with the consumed receiver. -/
def CellChain.nest_borrow (self : CellChain) (h : CellHeap) : CellNestResult Empty :=
  match self.targetCell h with
  | none => .badDeref
  | some b =>
      match borrowCell h b with
      | some (r, h1) => .ok (.ofNested ⟨r, self⟩) h1
      | none => .panicked

/-- Translated from `NestedRefCell::nest_try_borrow`: like `nest_borrow`, but a
conflict is returned as a value; the receiver, consumed by value, is dropped on
the error arm. -/
def CellChain.nest_try_borrow (self : CellChain) (h : CellHeap) :
    CellNestResult BorrowError :=
  match self.targetCell h with
  | none => .badDeref
  | some b =>
      match tryBorrowCell h b with
      | .ok (r, h1) => .ok (.ofNested ⟨r, self⟩) h1
      | .error e => .err e (self.drop h)

/-- Translated from `NestedRefCell::nest_borrow_mut`. -/
def CellChain.nest_borrow_mut (self : CellChain) (h : CellHeap) : CellNestResult Empty :=
  match self.targetCell h with
  | none => .badDeref
  | some b =>
      match borrowMutCell h b with
      | some (r, h1) => .ok (.ofNested ⟨r, self⟩) h1
      | none => .panicked

/-- Translated from `NestedRefCell::nest_try_borrow_mut`. -/
def CellChain.nest_try_borrow_mut (self : CellChain) (h : CellHeap) :
    CellNestResult BorrowMutError :=
  match self.targetCell h with
  | none => .badDeref
  | some b =>
      match tryBorrowMutCell h b with
      | .ok (r, h1) => .ok (.ofNested ⟨r, self⟩) h1
      | .error e => .err e (self.drop h)

/-- Heap holding a `d`-deep nesting of fresh cells with innermost value `v`:
cell `0` holds the value, cell `i` (for `1 ≤ i < d`) holds cell `i - 1`, and
the outermost cell is `d - 1`.  All borrow flags start clear. -/
def mkCells (d : Nat) (v : Int) : CellHeap :=
  fun i =>
    if i = 0 then ⟨0, .int v⟩
    else if i < d then ⟨0, .cellRef (i - 1)⟩
    else ⟨0, .int 0⟩

/-- Iterate `nest_borrow` over a previous composition outcome (a failed outcome
propagates, since the chain cannot continue). -/
def iterNestBorrow : Nat → CellNestResult Empty → CellNestResult Empty
  | 0, res => res
  | k + 1, res =>
      match res with
      | .ok c h => iterNestBorrow k (c.nest_borrow h)
      | other => other

/-- Composition of `d` shared-view acquisitions on the `d`-deep nesting, the
first link a native borrow of the outermost cell. -/
def borrowChainRun (d : Nat) (v : Int) : CellNestResult Empty :=
  match borrowCell (mkCells d v) (d - 1) with
  | some (r, h1) => iterNestBorrow (d - 1) (.ok (.bareRef r) h1)
  | none => .panicked

/-- Concrete scenario from the spec and the source test `test_many_refcell`:
three-deep nesting with innermost value 0; an exclusive composed view on the
middle layer replaces it with a fresh cell (allocated at the fresh address 3)
holding 2; the views are dropped; three shared acquisitions are re-composed. -/
def mutateScenario : Option CVal :=
  let h0 := mkCells 3 0
  match borrowCell h0 2 with
  | none => none
  | some (r1, h1) =>
    match CellChain.nest_borrow_mut (.bareRef r1) h1 with
    | .ok y h2 =>
        let h3 := hupdate h2 3 ⟨0, .int 2⟩
        match y.writev (.cellRef 3) h3 with
        | none => none
        | some h4 =>
          let h5 := y.drop h4
          match borrowCell h5 2 with
          | none => none
          | some (r2, h6) => (iterNestBorrow 2 (.ok (.bareRef r2) h6)).readv
    | _ => none

/-- Heap with one cell at address 0 whose exclusive view is outstanding. -/
def writingHeap : CellHeap :=
  fun i => if i = 0 then ⟨-1, .int 9⟩ else ⟨0, .int 0⟩

/-- Heap with one unborrowed cell at address 0. -/
def quietHeap : CellHeap :=
  fun i => if i = 0 then ⟨0, .int 9⟩ else ⟨0, .int 0⟩

/-- Cell heap in which cell 0 has an outstanding exclusive view of another
holder and cell 1, whose contents is cell 0, has the receiver's own shared
view outstanding. -/
def c10CellHeap : CellHeap :=
  fun i =>
    if i = 0 then ⟨-1, .int 3⟩
    else if i = 1 then ⟨1, .cellRef 0⟩
    else ⟨0, .int 0⟩

/-! ## Reference-counted handle families (`mod rc` and `mod sync`) -/

/-- Value held by a reference-counted allocation: a plain value or a weak
handle to another allocation (`Rc<Weak<...>>` nesting). -/
inductive RcVal : Type
  | int (n : Int)
  | weakRef (a : Nat)
deriving DecidableEq

/-- Modelled from the spec: a reference-counted allocation with its strong
count; the target is destroyed once the strong count reaches zero. -/
structure RcAlloc where
  strong : Nat
  value : RcVal
deriving DecidableEq

/-- Heap of reference-counted allocations. -/
abbrev RcHeap := Nat → RcAlloc

/-- Strong (owning) handle to an allocation. -/
structure Rc where
  alloc : Nat
deriving DecidableEq

/-- Modelled from the spec: `Weak::upgrade` returns nothing once the strong
count is zero, otherwise a new strong handle, incrementing the strong count. -/
def upgradeWeak (h : RcHeap) (a : Nat) : Option (Rc × RcHeap) :=
  if (h a).strong = 0 then none
  else some (⟨a⟩, hupdate h a { h a with strong := (h a).strong + 1 })

/-- Modelled from the spec: dropping a strong handle decrements the strong
count of its allocation. -/
def Rc.drop (r : Rc) (h : RcHeap) : RcHeap :=
  hupdate h r.alloc { h r.alloc with strong := (h r.alloc).strong - 1 }

/-- Owner shapes the weak-reference composition operations are applied to: a
plain weak reference, a native strong handle used as the root owner (the result
of a plain `upgrade`), or a `Nested` bundle from a previous composition. -/
inductive RcChain : Type
  | bareWeak (a : Nat)
  | bareRc (r : Rc)
  | link (r : Rc) (outer : RcChain)
deriving DecidableEq

/-- View of a `Nested` bundle as a chain link. -/
def RcChain.ofNested (b : Nested Rc RcChain) : RcChain :=
  .link b.inner b.outer

/-- Allocation that the receiver's deref target (a weak reference) points to:
a plain weak reference is its own target, while a strong handle or a bundle
derefs to its allocation's value, which must itself be a weak reference. -/
def RcChain.targetAlloc (c : RcChain) (h : RcHeap) : Option Nat :=
  match c with
  | .bareWeak a => some a
  | .bareRc r =>
      match (h r.alloc).value with
      | .weakRef b => some b
      | _ => none
  | .link r _ =>
      match (h r.alloc).value with
      | .weakRef b => some b
      | _ => none

/-- Dropping a chain owner: a plain weak reference releases no strong count; a
strong handle decrements its allocation; a bundle releases its view first and
then its owner. -/
def RcChain.drop (c : RcChain) (h : RcHeap) : RcHeap :=
  match c with
  | .bareWeak _ => h
  | .bareRc r => r.drop h
  | .link r outer => outer.drop (r.drop h)

/-- Dereferencing a chain used as a strong view. -/
def RcChain.readv (c : RcChain) (h : RcHeap) : Option RcVal :=
  match c with
  | .bareWeak _ => none
  | .bareRc r => some ((h r.alloc).value)
  | .link r _ => some ((h r.alloc).value)

/-- Inner strong handle of a chain used as a view. -/
def RcChain.innerRc : RcChain → Option Rc
  | .bareWeak _ => none
  | .bareRc r => some r
  | .link r _ => some r

/-- Outcome of a weak-reference composition: `ok` carries the new bundle,
`dead` is the empty outcome (target already destroyed) and carries the heap
after the consumed receiver has been dropped. -/
inductive RcNestResult : Type
  | ok (c : RcChain) (h : RcHeap)
  | dead (h : RcHeap)
  | badDeref

/-- Value seen through the bundle produced by a successful upgrade. -/
def RcNestResult.readv : RcNestResult → Option RcVal
  | .ok c h => c.readv h
  | _ => none

/-- Whether an upgrade outcome is a success. -/
def RcNestResult.isOk : RcNestResult → Bool
  | .ok _ _ => true
  | _ => false

/-- Heap state returned with the empty outcome, observed at one allocation. -/
def RcNestResult.deadHeapAt : RcNestResult → Nat → Option RcAlloc
  | .dead h, a => some (h a)
  | _, _ => none

/-- Translated from `NestedRcWeak::nest_upgrade`: deref the receiver to a weak
reference, attempt the native upgrade, and on success bundle the new strong
handle with the consumed receiver; the `?` on a failed upgrade returns `None`
and drops the receiver. -/
def RcChain.nest_upgrade (self : RcChain) (h : RcHeap) : RcNestResult :=
  match self.targetAlloc h with
  | none => .badDeref
  | some b =>
      match upgradeWeak h b with
      | some (r, h1) => .ok (.ofNested ⟨r, self⟩) h1
      | none => .dead (self.drop h)

/-- Translated from `NestedArcWeak::nest_upgrade` in `mod sync`, whose body is
textually identical to the `mod rc` one; the embedding abstracts threading, so
both act on the same heap model. -/
def nest_upgrade_arc (self : RcChain) (h : RcHeap) : RcNestResult :=
  match self.targetAlloc h with
  | none => .badDeref
  | some b =>
      match upgradeWeak h b with
      | some (r, h1) => .ok (.ofNested ⟨r, self⟩) h1
      | none => .dead (self.drop h)

/-- Heap holding a chain of `n` weak references, every strong owner alive:
allocation `0` holds the root value `v` (strong count 1), allocation `i`
(for `1 ≤ i < n`) holds a weak reference to allocation `i - 1`. -/
def mkRcHeap (n : Nat) (v : Int) : RcHeap :=
  fun i =>
    if i = 0 then ⟨1, .int v⟩
    else if i < n then ⟨1, .weakRef (i - 1)⟩
    else ⟨0, .int 0⟩

/-- Iterate `nest_upgrade` over a previous outcome; an empty outcome
propagates, since the chain cannot continue past it. -/
def iterNestUpgrade : Nat → RcNestResult → RcNestResult
  | 0, res => res
  | k + 1, res =>
      match res with
      | .ok c h => iterNestUpgrade k (c.nest_upgrade h)
      | other => other

/-- Composition of `n` upgrades starting from the outermost weak reference of
an `n`-chain laid out as in `mkRcHeap`. -/
def upgradeRun (n : Nat) (h : RcHeap) : RcNestResult :=
  iterNestUpgrade (n - 1) (RcChain.nest_upgrade (.bareWeak (n - 1)) h)

/-- Heap refuting the claim that a living root strong owner alone suffices: a
2-chain in which the root allocation is alive (strong count 1) but the
intermediate strong owner has been released (strong count 0). -/
def brokenRcHeap : RcHeap :=
  fun i =>
    if i = 0 then ⟨1, .int 7⟩
    else if i = 1 then ⟨0, .weakRef 0⟩
    else ⟨0, .int 0⟩

/-- Release of the root strong owner after two successful upgrades of a
3-chain; the third upgrade happens after the release. -/
def releaseMidScenario : RcNestResult :=
  let h := mkRcHeap 3 0
  match RcChain.nest_upgrade (.bareWeak 2) h with
  | .ok c1 h1 =>
      match c1.nest_upgrade h1 with
      | .ok c2 h2 =>
          let h3 := Rc.drop ⟨0⟩ h2
          c2.nest_upgrade h3
      | other => other
  | other => other

/-- Reference-counted heap in which allocation 0 is dead and allocation 1,
holding a weak reference to 0, is kept alive partly by the receiver's own
strong handle. -/
def c10RcHeap : RcHeap :=
  fun i =>
    if i = 0 then ⟨0, .int 7⟩
    else if i = 1 then ⟨2, .weakRef 0⟩
    else ⟨0, .int 0⟩

/-! ## Exclusive lock family (`mod sync`, `NestedMutex`) -/

/-- Contents guarded by an exclusive lock: a plain value or another lock
(`Mutex<Mutex<...>>` nesting). -/
inductive MVal : Type
  | int (n : Int)
  | mutexRef (a : Nat)
deriving DecidableEq

/-- Modelled from the spec: an exclusive lock with its held state and poison
flag (raised when a holder terminates abnormally while holding it). -/
structure MutexCell where
  locked : Bool
  poisoned : Bool
  contents : MVal
deriving DecidableEq

/-- Heap of exclusive locks. -/
abbrev MutexHeap := Nat → MutexCell

/-- Exclusive guard of the lock at address `cell`. -/
structure MutexGuard where
  cell : Nat
deriving DecidableEq

/-- Modelled from the spec: releasing a guard normally unlocks the lock. -/
def MutexGuard.drop (g : MutexGuard) (h : MutexHeap) : MutexHeap :=
  hupdate h g.cell { h g.cell with locked := false }

/-- Modelled from the spec: a holder terminating abnormally while holding the
lock unlocks it and raises the poison flag. -/
def MutexGuard.panicDrop (g : MutexGuard) (h : MutexHeap) : MutexHeap :=
  hupdate h g.cell { h g.cell with locked := false, poisoned := true }

/-- Writing through an exclusive guard replaces the guarded contents. -/
def MutexGuard.write (g : MutexGuard) (v : MVal) (h : MutexHeap) : MutexHeap :=
  hupdate h g.cell { h g.cell with contents := v }

/-- Owner shapes the lock composition operations are applied to. -/
inductive MutexChain : Type
  | bareMutex (a : Nat)
  | bareGuard (g : MutexGuard)
  | link (g : MutexGuard) (outer : MutexChain)
deriving DecidableEq

/-- View of a `Nested` bundle as a chain link. -/
def MutexChain.ofNested (b : Nested MutexGuard MutexChain) : MutexChain :=
  .link b.inner b.outer

/-- Address of the lock the receiver derefs to. -/
def MutexChain.targetMutex (c : MutexChain) (h : MutexHeap) : Option Nat :=
  match c with
  | .bareMutex a => some a
  | .bareGuard g =>
      match (h g.cell).contents with
      | .mutexRef b => some b
      | _ => none
  | .link g _ =>
      match (h g.cell).contents with
      | .mutexRef b => some b
      | _ => none

/-- Dropping a chain owner: view first, then the owner, recursively. -/
def MutexChain.drop (c : MutexChain) (h : MutexHeap) : MutexHeap :=
  match c with
  | .bareMutex _ => h
  | .bareGuard g => g.drop h
  | .link g outer => outer.drop (g.drop h)

/-- Dereferencing a chain used as a view. -/
def MutexChain.readv (c : MutexChain) (h : MutexHeap) : Option MVal :=
  match c with
  | .bareMutex _ => none
  | .bareGuard g => some ((h g.cell).contents)
  | .link g _ => some ((h g.cell).contents)

/-- Outcome of a lock composition.  `ok` is a clean acquisition; `poisonedR`
is the error-flagged acquisition whose payload is the fully usable bundle;
`wouldBlock` carries the heap after the consumed receiver has been dropped;
`blocked` marks the arm on which the blocking acquire suspends. -/
inductive MutexNestResult : Type
  | ok (c : MutexChain) (h : MutexHeap)
  | poisonedR (c : MutexChain) (h : MutexHeap)
  | wouldBlock (h : MutexHeap)
  | blocked
  | badDeref

/-- Value seen through the bundle of a clean or poison-flagged acquisition
(after the caller explicitly unwraps the poison flag). -/
def MutexNestResult.readv : MutexNestResult → Option MVal
  | .ok c h => c.readv h
  | .poisonedR c h => c.readv h
  | _ => none

/-- Heap state returned with a `WouldBlock` outcome, observed at one lock. -/
def MutexNestResult.wouldBlockHeapAt : MutexNestResult → Nat → Option MutexCell
  | .wouldBlock h, a => some (h a)
  | _, _ => none

/-- Translated from `NestedMutex::nest_lock`: acquire the lock (suspending
while it is held), then bundle the guard with the consumed receiver; a
poisoned acquisition is wrapped in the error flag around the same bundle. -/
def MutexChain.nest_lock (self : MutexChain) (h : MutexHeap) : MutexNestResult :=
  match self.targetMutex h with
  | none => .badDeref
  | some b =>
      if (h b).locked then .blocked
      else
        let h1 := hupdate h b { h b with locked := true }
        if (h b).poisoned then .poisonedR (.ofNested ⟨⟨b⟩, self⟩) h1
        else .ok (.ofNested ⟨⟨b⟩, self⟩) h1

/-- Translated from `NestedMutex::nest_try_lock`: like `nest_lock`, but a held
lock yields `WouldBlock` immediately, dropping the consumed receiver. -/
def MutexChain.nest_try_lock (self : MutexChain) (h : MutexHeap) : MutexNestResult :=
  match self.targetMutex h with
  | none => .badDeref
  | some b =>
      if (h b).locked then .wouldBlock (self.drop h)
      else
        let h1 := hupdate h b { h b with locked := true }
        if (h b).poisoned then .poisonedR (.ofNested ⟨⟨b⟩, self⟩) h1
        else .ok (.ofNested ⟨⟨b⟩, self⟩) h1

/-- Heap after a holder of the lock at `a` wrote `v` through its guard and
then terminated abnormally while still holding the lock. -/
def mutexAfterPanic (h : MutexHeap) (a : Nat) (v : MVal) : MutexHeap :=
  MutexGuard.panicDrop ⟨a⟩ (MutexGuard.write ⟨a⟩ v h)

/-- Quiet mutex heap used by witnesses. -/
def quietMutexHeap : MutexHeap :=
  fun i => if i = 0 then ⟨false, false, .int 4⟩ else ⟨false, false, .int 0⟩

/-- Heap with the lock at address 0 held by another holder. -/
def heldMutexHeap : MutexHeap :=
  fun i => if i = 0 then ⟨true, false, .int 3⟩ else ⟨false, false, .int 0⟩

/-- Heap in which lock 0 is held by another holder and lock 1, whose contents
is lock 0, is held by the receiver's own guard. -/
def c10MutexHeap : MutexHeap :=
  fun i =>
    if i = 0 then ⟨true, false, .int 3⟩
    else if i = 1 then ⟨true, false, .mutexRef 0⟩
    else ⟨false, false, .int 0⟩

/-! ## Reader-writer lock family (`mod sync`, `NestedRwLock`) -/

/-- Contents guarded by a reader-writer lock. -/
inductive RwVal : Type
  | int (n : Int)
  | rwRef (a : Nat)
deriving DecidableEq

/-- Modelled from the spec: a reader-writer lock with its shared-reader count,
exclusive-writer flag and poison flag. -/
structure RwCell where
  readers : Nat
  writer : Bool
  poisoned : Bool
  contents : RwVal
deriving DecidableEq

/-- Heap of reader-writer locks. -/
abbrev RwHeap := Nat → RwCell

/-- Shared (`write = false`) or exclusive (`write = true`) guard of the
reader-writer lock at address `cell`. -/
structure RwGuard where
  cell : Nat
  write : Bool
deriving DecidableEq

/-- Modelled from the spec: releasing a guard decrements the reader count or
clears the writer flag. -/
def RwGuard.drop (g : RwGuard) (h : RwHeap) : RwHeap :=
  if g.write then hupdate h g.cell { h g.cell with writer := false }
  else hupdate h g.cell { h g.cell with readers := (h g.cell).readers - 1 }

/-- Modelled from the spec: a writer terminating abnormally while holding the
lock releases it and raises the poison flag. -/
def RwGuard.panicDrop (g : RwGuard) (h : RwHeap) : RwHeap :=
  hupdate h g.cell { h g.cell with writer := false, poisoned := true }

/-- Writing through an exclusive guard replaces the guarded contents. -/
def RwGuard.write_contents (g : RwGuard) (v : RwVal) (h : RwHeap) : RwHeap :=
  hupdate h g.cell { h g.cell with contents := v }

/-- Owner shapes the reader-writer composition operations are applied to. -/
inductive RwChain : Type
  | bareRw (a : Nat)
  | bareGuard (g : RwGuard)
  | link (g : RwGuard) (outer : RwChain)
deriving DecidableEq

/-- View of a `Nested` bundle as a chain link. -/
def RwChain.ofNested (b : Nested RwGuard RwChain) : RwChain :=
  .link b.inner b.outer

/-- Address of the lock the receiver derefs to. -/
def RwChain.targetRw (c : RwChain) (h : RwHeap) : Option Nat :=
  match c with
  | .bareRw a => some a
  | .bareGuard g =>
      match (h g.cell).contents with
      | .rwRef b => some b
      | _ => none
  | .link g _ =>
      match (h g.cell).contents with
      | .rwRef b => some b
      | _ => none

/-- Dropping a chain owner: view first, then the owner, recursively. -/
def RwChain.drop (c : RwChain) (h : RwHeap) : RwHeap :=
  match c with
  | .bareRw _ => h
  | .bareGuard g => g.drop h
  | .link g outer => outer.drop (g.drop h)

/-- Dereferencing a chain used as a view. -/
def RwChain.readv (c : RwChain) (h : RwHeap) : Option RwVal :=
  match c with
  | .bareRw _ => none
  | .bareGuard g => some ((h g.cell).contents)
  | .link g _ => some ((h g.cell).contents)

/-- Outcome of a reader-writer composition, with the same arms as the
exclusive lock's non-blocking acquire. -/
inductive RwNestResult : Type
  | ok (c : RwChain) (h : RwHeap)
  | poisonedR (c : RwChain) (h : RwHeap)
  | wouldBlock (h : RwHeap)
  | badDeref

/-- Value seen through the bundle of a clean or poison-flagged acquisition. -/
def RwNestResult.readv : RwNestResult → Option RwVal
  | .ok c h => c.readv h
  | .poisonedR c h => c.readv h
  | _ => none

/-- Heap state returned with a `WouldBlock` outcome, observed at one lock. -/
def RwNestResult.wouldBlockHeapAt : RwNestResult → Nat → Option RwCell
  | .wouldBlock h, a => some (h a)
  | _, _ => none

/-- Translated from `NestedRwLock::nest_try_read`: a held writer yields
`WouldBlock`, dropping the consumed receiver; otherwise the reader count is
bumped and the new shared guard is bundled with the receiver, behind the
poison flag when the lock is poisoned. -/
def RwChain.nest_try_read (self : RwChain) (h : RwHeap) : RwNestResult :=
  match self.targetRw h with
  | none => .badDeref
  | some b =>
      if (h b).writer then .wouldBlock (self.drop h)
      else
        let h1 := hupdate h b { h b with readers := (h b).readers + 1 }
        if (h b).poisoned then .poisonedR (.ofNested ⟨⟨b, false⟩, self⟩) h1
        else .ok (.ofNested ⟨⟨b, false⟩, self⟩) h1

/-- Translated from `NestedRwLock::nest_try_write`: any outstanding reader or
writer yields `WouldBlock`, dropping the consumed receiver; otherwise the
writer flag is set and the new exclusive guard is bundled with the receiver,
behind the poison flag when the lock is poisoned. -/
def RwChain.nest_try_write (self : RwChain) (h : RwHeap) : RwNestResult :=
  match self.targetRw h with
  | none => .badDeref
  | some b =>
      if (h b).writer ∨ 0 < (h b).readers then .wouldBlock (self.drop h)
      else
        let h1 := hupdate h b { h b with writer := true }
        if (h b).poisoned then .poisonedR (.ofNested ⟨⟨b, true⟩, self⟩) h1
        else .ok (.ofNested ⟨⟨b, true⟩, self⟩) h1

/-- Heap after a write-holder of the reader-writer lock at `b` wrote `v`
through its guard and then terminated abnormally while still holding it. -/
def rwAfterPanic (h : RwHeap) (b : Nat) (v : RwVal) : RwHeap :=
  RwGuard.panicDrop ⟨b, true⟩ (RwGuard.write_contents ⟨b, true⟩ v h)

/-- Quiet reader-writer heap used by witnesses. -/
def quietRwHeap : RwHeap :=
  fun i => if i = 0 then ⟨0, false, false, .int 4⟩ else ⟨0, false, false, .int 0⟩

/-- Heap with the reader-writer lock at address 0 write-held, and the one at
address 1 read-held. -/
def heldRwHeap : RwHeap :=
  fun i =>
    if i = 0 then ⟨0, true, false, .int 3⟩
    else if i = 1 then ⟨2, false, false, .int 6⟩
    else ⟨0, false, false, .int 0⟩

/-- Reader-writer heap in which lock 0 is write-held by another holder and
lock 1, whose contents is lock 0, is read-held by the receiver's own guard. -/
def c10RwHeap : RwHeap :=
  fun i =>
    if i = 0 then ⟨0, true, false, .int 3⟩
    else if i = 1 then ⟨1, false, false, .rwRef 0⟩
    else ⟨0, false, false, .int 0⟩

/-! ## Abstract destruction order -/

/-- Abstract chain of nested bundles used to state destruction order: each
link is a bundle whose view carries an identifier, and the base is the root
owner carrying its own identifier. -/
inductive OwnerChain : Type
  | base (i : Nat)
  | link (viewId : Nat) (outer : OwnerChain)
deriving DecidableEq

/-- View of a `Nested` bundle as an abstract chain link. -/
def OwnerChain.ofNested (b : Nested Nat OwnerChain) : OwnerChain :=
  .link b.inner b.outer

/-- Destruction trace of a chain, in order of destruction: Rust drops struct
fields in declaration order, and `Nested` declares `inner` (the view) before
`outer` (the owner), so each link's view is destroyed before everything in
its owner. -/
def OwnerChain.dropTrace : OwnerChain → List Nat
  | .base i => [i]
  | .link v outer => v :: outer.dropTrace

/-- Owner chain `k` links deep inside a chain. -/
def OwnerChain.subOwner : OwnerChain → Nat → Option OwnerChain
  | c, 0 => some c
  | .link _ outer, k + 1 => outer.subOwner k
  | .base _, _ + 1 => none

/-! ## Helper lemmas -/

theorem hupdate_same {α : Type} (h : Nat → α) (a : Nat) (c : α) :
    hupdate h a c a = c := by
  simp [hupdate]

theorem hupdate_other {α : Type} (h : Nat → α) (a b : Nat) (c : α) (hne : b ≠ a) :
    hupdate h a c b = h b := by
  simp [hupdate, hne]

theorem mkCells_zero (d : Nat) (v : Int) : mkCells d v 0 = ⟨0, .int v⟩ := by
  simp [mkCells]

theorem mkCells_pos (d : Nat) (v : Int) (m : Nat) (h1 : m ≠ 0) (h2 : m < d) :
    mkCells d v m = ⟨0, .cellRef (m - 1)⟩ := by
  simp [mkCells, h1, h2]

theorem mkCells_flag (d : Nat) (v : Int) (i : Nat) : (mkCells d v i).borrowFlag = 0 := by
  unfold mkCells
  split
  · rfl
  · split <;> rfl

theorem iterNestBorrow_invariant (d : Nat) (v : Int) :
    ∀ (k m : Nat) (c : CellChain) (h : CellHeap) (r : CellRef),
      c.innerView = some r → r.cell = m →
      (∀ i, (h i).contents = (mkCells d v i).contents) →
      (∀ i, 0 ≤ (h i).borrowFlag) →
      k ≤ m → m < d →
      (iterNestBorrow k (.ok c h)).readv = some ((mkCells d v (m - k)).contents) := by
  intro k
  induction k with
  | zero =>
    intro m c h r hiv hrc hcont _ _ _
    cases c with
    | bareCell a => simp [CellChain.innerView] at hiv
    | bareRef r0 =>
        simp only [CellChain.innerView, Option.some.injEq] at hiv
        subst hiv
        simp [iterNestBorrow, CellNestResult.readv, CellChain.readv, CellRef.read, hrc,
          hcont m]
    | link r0 o =>
        simp only [CellChain.innerView, Option.some.injEq] at hiv
        subst hiv
        simp [iterNestBorrow, CellNestResult.readv, CellChain.readv, CellRef.read, hrc,
          hcont m]
  | succ k ih =>
    intro m c h r hiv hrc hcont hflag hk hm
    have hm0 : m ≠ 0 := by omega
    have hc : (h m).contents = .cellRef (m - 1) := by
      rw [hcont m, mkCells_pos d v m hm0 hm]
    have htgt : c.targetCell h = some (m - 1) := by
      cases c with
      | bareCell a => simp [CellChain.innerView] at hiv
      | bareRef r0 =>
          simp only [CellChain.innerView, Option.some.injEq] at hiv
          subst hiv
          simp [CellChain.targetCell, hrc, hc]
      | link r0 o =>
          simp only [CellChain.innerView, Option.some.injEq] at hiv
          subst hiv
          simp [CellChain.targetCell, hrc, hc]
    have hflagm : ¬ (h (m - 1)).borrowFlag < 0 := by
      have := hflag (m - 1); omega
    have hstep : c.nest_borrow h =
        .ok (.link ⟨m - 1, false⟩ c)
          (hupdate h (m - 1)
            { h (m - 1) with borrowFlag := (h (m - 1)).borrowFlag + 1 }) := by
      simp [CellChain.nest_borrow, htgt, borrowCell, tryBorrowCell, hflagm,
        CellChain.ofNested]
    have hiter : iterNestBorrow (k + 1) (.ok c h) = iterNestBorrow k (c.nest_borrow h) :=
      rfl
    rw [hiter, hstep]
    have hcont1 : ∀ i,
        ((hupdate h (m - 1)
          { h (m - 1) with borrowFlag := (h (m - 1)).borrowFlag + 1 }) i).contents =
        (mkCells d v i).contents := by
      intro i
      by_cases hi : i = m - 1
      · subst hi
        rw [hupdate_same]
        exact hcont (m - 1)
      · rw [hupdate_other _ _ _ _ hi]
        exact hcont i
    have hflag1 : ∀ i,
        0 ≤ ((hupdate h (m - 1)
          { h (m - 1) with borrowFlag := (h (m - 1)).borrowFlag + 1 }) i).borrowFlag := by
      intro i
      by_cases hi : i = m - 1
      · subst hi
        rw [hupdate_same]
        have := hflag (m - 1)
        simp
        omega
      · rw [hupdate_other _ _ _ _ hi]
        exact hflag i
    have hres := ih (m - 1) (.link ⟨m - 1, false⟩ c) _ ⟨m - 1, false⟩ rfl rfl hcont1 hflag1
      (by omega) (by omega)
    rw [hres]
    have harith : m - 1 - k = m - (k + 1) := by omega
    rw [harith]

theorem mkRcHeap_zero (n : Nat) (v : Int) : mkRcHeap n v 0 = ⟨1, .int v⟩ := by
  simp [mkRcHeap]

theorem mkRcHeap_pos (n : Nat) (v : Int) (m : Nat) (h1 : m ≠ 0) (h2 : m < n) :
    mkRcHeap n v m = ⟨1, .weakRef (m - 1)⟩ := by
  simp [mkRcHeap, h1, h2]

theorem RcNestResult.isOk_of_readv {res : RcNestResult} {x : RcVal}
    (h : res.readv = some x) : res.isOk = true := by
  cases res <;> simp_all [readv, isOk]

theorem iterNestUpgrade_invariant (n : Nat) (v : Int) :
    ∀ (k m : Nat) (c : RcChain) (h : RcHeap) (r : Rc),
      c.innerRc = some r → r.alloc = m →
      (∀ i, i < n → (h i).value = (mkRcHeap n v i).value) →
      (∀ i, i < n → 1 ≤ (h i).strong) →
      k ≤ m → m < n →
      (iterNestUpgrade k (.ok c h)).readv = some ((mkRcHeap n v (m - k)).value) := by
  intro k
  induction k with
  | zero =>
    intro m c h r hiv hrc hval _ _ hm
    cases c with
    | bareWeak a => simp [RcChain.innerRc] at hiv
    | bareRc r0 =>
        simp only [RcChain.innerRc, Option.some.injEq] at hiv
        subst hiv
        simp [iterNestUpgrade, RcNestResult.readv, RcChain.readv, hrc, hval m hm]
    | link r0 o =>
        simp only [RcChain.innerRc, Option.some.injEq] at hiv
        subst hiv
        simp [iterNestUpgrade, RcNestResult.readv, RcChain.readv, hrc, hval m hm]
  | succ k ih =>
    intro m c h r hiv hrc hval hstrong hk hm
    have hm0 : m ≠ 0 := by omega
    have hc : (h m).value = .weakRef (m - 1) := by
      rw [hval m hm, mkRcHeap_pos n v m hm0 hm]
    have htgt : c.targetAlloc h = some (m - 1) := by
      cases c with
      | bareWeak a => simp [RcChain.innerRc] at hiv
      | bareRc r0 =>
          simp only [RcChain.innerRc, Option.some.injEq] at hiv
          subst hiv
          simp [RcChain.targetAlloc, hrc, hc]
      | link r0 o =>
          simp only [RcChain.innerRc, Option.some.injEq] at hiv
          subst hiv
          simp [RcChain.targetAlloc, hrc, hc]
    have hsm : ¬ (h (m - 1)).strong = 0 := by
      have := hstrong (m - 1) (by omega); omega
    have hstep : c.nest_upgrade h =
        .ok (.link ⟨m - 1⟩ c)
          (hupdate h (m - 1) { h (m - 1) with strong := (h (m - 1)).strong + 1 }) := by
      simp [RcChain.nest_upgrade, htgt, upgradeWeak, hsm, RcChain.ofNested]
    have hiter : iterNestUpgrade (k + 1) (.ok c h) =
        iterNestUpgrade k (c.nest_upgrade h) := rfl
    rw [hiter, hstep]
    have hval1 : ∀ i, i < n →
        ((hupdate h (m - 1) { h (m - 1) with strong := (h (m - 1)).strong + 1 }) i).value =
        (mkRcHeap n v i).value := by
      intro i hi
      by_cases hieq : i = m - 1
      · subst hieq; rw [hupdate_same]; exact hval (m - 1) hi
      · rw [hupdate_other _ _ _ _ hieq]; exact hval i hi
    have hstrong1 : ∀ i, i < n →
        1 ≤ ((hupdate h (m - 1) { h (m - 1) with strong := (h (m - 1)).strong + 1 }) i).strong := by
      intro i hi
      by_cases hieq : i = m - 1
      · subst hieq; rw [hupdate_same]; simp
      · rw [hupdate_other _ _ _ _ hieq]; exact hstrong i hi
    have hres := ih (m - 1) (.link ⟨m - 1⟩ c) _ ⟨m - 1⟩ rfl rfl hval1 hstrong1
      (by omega) (by omega)
    rw [hres]
    have harith : m - 1 - k = m - (k + 1) := by omega
    rw [harith]

theorem mutexAfterPanic_at (h : MutexHeap) (a : Nat) (v : MVal) :
    mutexAfterPanic h a v a = ⟨false, true, v⟩ := by
  simp [mutexAfterPanic, MutexGuard.panicDrop, MutexGuard.write, hupdate_same]

theorem rwAfterPanic_at (h : RwHeap) (b : Nat) (v : RwVal) :
    rwAfterPanic h b v b = ⟨(h b).readers, false, true, v⟩ := by
  simp [rwAfterPanic, RwGuard.panicDrop, RwGuard.write_contents, hupdate_same]

/-! ## The claims -/

/-- C1: for every nesting depth d ≥ 1 over the checked cell, composing d
shared-view acquisitions (`nest_borrow`, the first link a native borrow) yields
through the bundle's deref the innermost cell's value; concretely, the
three-deep chain with innermost value 0 yields 0, and after replacing the
middle layer with a fresh cell holding 2 the repeated three-deep shared
acquisition yields 2. -/
theorem nest_borrow_chain_yields_innermost (d : Nat) (v : Int) (hd : 1 ≤ d) :
    (borrowChainRun d v).readv = some (.int v) ∧
    (borrowChainRun 3 0).readv = some (.int 0) ∧
    mutateScenario = some (.int 2) := by
  refine ⟨?_, by decide, by decide⟩
  unfold borrowChainRun
  have hflagd : ¬ (mkCells d v (d - 1)).borrowFlag < 0 := by
    rw [mkCells_flag]; omega
  have hstart : borrowCell (mkCells d v) (d - 1) =
      some (⟨d - 1, false⟩,
        hupdate (mkCells d v) (d - 1)
          { mkCells d v (d - 1) with
              borrowFlag := (mkCells d v (d - 1)).borrowFlag + 1 }) := by
    simp [borrowCell, tryBorrowCell, hflagd]
  rw [hstart]
  have hcont1 : ∀ i,
      ((hupdate (mkCells d v) (d - 1)
        { mkCells d v (d - 1) with
            borrowFlag := (mkCells d v (d - 1)).borrowFlag + 1 }) i).contents =
      (mkCells d v i).contents := by
    intro i
    by_cases hi : i = d - 1
    · subst hi; rw [hupdate_same]
    · rw [hupdate_other _ _ _ _ hi]
  have hflag1 : ∀ i,
      0 ≤ ((hupdate (mkCells d v) (d - 1)
        { mkCells d v (d - 1) with
            borrowFlag := (mkCells d v (d - 1)).borrowFlag + 1 }) i).borrowFlag := by
    intro i
    by_cases hi : i = d - 1
    · subst hi; rw [hupdate_same]; simp [mkCells_flag]
    · rw [hupdate_other _ _ _ _ hi]; rw [mkCells_flag]
  have hres := iterNestBorrow_invariant d v (d - 1) (d - 1) (.bareRef ⟨d - 1, false⟩) _
    ⟨d - 1, false⟩ rfl rfl hcont1 hflag1 (by omega) (by omega)
  rw [hres]
  simp [mkCells_zero]

/-- Witness for `nest_borrow_chain_yields_innermost` at depth 3, value 7. -/
theorem nest_borrow_chain_yields_innermost_witness :
    (borrowChainRun 3 7).readv = some (.int 7) ∧
    (borrowChainRun 3 0).readv = some (.int 0) ∧
    mutateScenario = some (.int 2) :=
  nest_borrow_chain_yields_innermost 3 7 (by decide)

/-- C4: a fallible cell acquire under a borrow conflict returns the conflict as
a value-level error (`BorrowError` for shared, `BorrowMutError` for exclusive)
and returns with the cell's outstanding-borrow state unchanged; with no
conflict it returns a bundle of the new view and the consumed receiver. -/
theorem nest_try_borrow_conflict_is_value_error (a : Nat) (h : CellHeap) :
    ((h a).borrowFlag < 0 →
      CellChain.nest_try_borrow (.bareCell a) h = .err .mk h) ∧
    (0 ≤ (h a).borrowFlag →
      CellChain.nest_try_borrow (.bareCell a) h =
        .ok (.link ⟨a, false⟩ (.bareCell a))
          (hupdate h a { h a with borrowFlag := (h a).borrowFlag + 1 })) ∧
    ((h a).borrowFlag ≠ 0 →
      CellChain.nest_try_borrow_mut (.bareCell a) h = .err .mk h) ∧
    ((h a).borrowFlag = 0 →
      CellChain.nest_try_borrow_mut (.bareCell a) h =
        .ok (.link ⟨a, true⟩ (.bareCell a))
          (hupdate h a { h a with borrowFlag := -1 })) := by
  refine ⟨?_, ?_, ?_, ?_⟩
  · intro hlt
    simp [CellChain.nest_try_borrow, CellChain.targetCell, tryBorrowCell, hlt,
      CellChain.drop]
  · intro hge
    have hlt : ¬ (h a).borrowFlag < 0 := by omega
    simp [CellChain.nest_try_borrow, CellChain.targetCell, tryBorrowCell, hlt,
      CellChain.ofNested]
  · intro hne
    simp [CellChain.nest_try_borrow_mut, CellChain.targetCell, tryBorrowMutCell, hne,
      CellChain.drop]
  · intro heq
    simp [CellChain.nest_try_borrow_mut, CellChain.targetCell, tryBorrowMutCell, heq,
      CellChain.ofNested]

/-- Witness for `nest_try_borrow_conflict_is_value_error`: both fallible
acquires err on a cell with an outstanding exclusive view, and the exclusive
acquire succeeds on a quiet cell. -/
theorem nest_try_borrow_conflict_is_value_error_witness :
    CellChain.nest_try_borrow (.bareCell 0) writingHeap = .err .mk writingHeap ∧
    CellChain.nest_try_borrow_mut (.bareCell 0) writingHeap = .err .mk writingHeap ∧
    CellChain.nest_try_borrow_mut (.bareCell 0) quietHeap =
      .ok (.link ⟨0, true⟩ (.bareCell 0))
        (hupdate quietHeap 0 { quietHeap 0 with borrowFlag := -1 }) :=
  ⟨(nest_try_borrow_conflict_is_value_error 0 writingHeap).1 (by decide),
   (nest_try_borrow_conflict_is_value_error 0 writingHeap).2.2.1 (by decide),
   (nest_try_borrow_conflict_is_value_error 0 quietHeap).2.2.2 (by decide)⟩

/-- C5: the non-fallible cell acquires abort exactly under a conflict (an
outstanding exclusive view for `nest_borrow`, any outstanding view for
`nest_borrow_mut`), mirroring the wrapped primitive's non-fallible variant, and
return a bundle when there is no conflict. -/
theorem nest_borrow_aborts_iff_conflict (a : Nat) (h : CellHeap) :
    (CellChain.nest_borrow (.bareCell a) h = .panicked ↔ (h a).borrowFlag < 0) ∧
    (CellChain.nest_borrow_mut (.bareCell a) h = .panicked ↔ (h a).borrowFlag ≠ 0) ∧
    (0 ≤ (h a).borrowFlag →
      CellChain.nest_borrow (.bareCell a) h =
        .ok (.link ⟨a, false⟩ (.bareCell a))
          (hupdate h a { h a with borrowFlag := (h a).borrowFlag + 1 })) ∧
    ((h a).borrowFlag = 0 →
      CellChain.nest_borrow_mut (.bareCell a) h =
        .ok (.link ⟨a, true⟩ (.bareCell a))
          (hupdate h a { h a with borrowFlag := -1 })) := by
  refine ⟨?_, ?_, ?_, ?_⟩
  · by_cases hlt : (h a).borrowFlag < 0
    · simp [CellChain.nest_borrow, CellChain.targetCell, borrowCell, tryBorrowCell, hlt]
    · simp [CellChain.nest_borrow, CellChain.targetCell, borrowCell, tryBorrowCell, hlt]
  · by_cases hne : (h a).borrowFlag ≠ 0
    · simp [CellChain.nest_borrow_mut, CellChain.targetCell, borrowMutCell,
        tryBorrowMutCell, hne]
    · simp [CellChain.nest_borrow_mut, CellChain.targetCell, borrowMutCell,
        tryBorrowMutCell, hne]
  · intro hge
    have hlt : ¬ (h a).borrowFlag < 0 := by omega
    simp [CellChain.nest_borrow, CellChain.targetCell, borrowCell, tryBorrowCell, hlt,
      CellChain.ofNested]
  · intro heq
    simp [CellChain.nest_borrow_mut, CellChain.targetCell, borrowMutCell,
      tryBorrowMutCell, heq, CellChain.ofNested]

/-- Witness for `nest_borrow_aborts_iff_conflict`: the non-fallible shared
acquire aborts on a cell with an outstanding exclusive view, and succeeds on a
quiet cell. -/
theorem nest_borrow_aborts_iff_conflict_witness :
    CellChain.nest_borrow (.bareCell 0) writingHeap = .panicked ∧
    CellChain.nest_borrow (.bareCell 0) quietHeap =
      .ok (.link ⟨0, false⟩ (.bareCell 0))
        (hupdate quietHeap 0 { quietHeap 0 with borrowFlag := (quietHeap 0).borrowFlag + 1 }) :=
  ⟨(nest_borrow_aborts_iff_conflict 0 writingHeap).1.2 (by decide),
   (nest_borrow_aborts_iff_conflict 0 quietHeap).2.2.1 (by decide)⟩

/-- Counterexample to C2 as stated: with the root strong owner alive
throughout but the intermediate owner released, composing the 2 upgrades of a
2-chain yields no bundle at all. -/
theorem nest_upgrade_chain_root_alive_insufficient :
    (brokenRcHeap 0).strong = 1 ∧
    (upgradeRun 2 brokenRcHeap).isOk = false ∧
    (upgradeRun 2 brokenRcHeap).readv = none := by
  decide

/-- C2 (amended): for a chain of `n` weak references where every strong owner
along the chain (including the root) remains alive throughout, composing `n`
upgrade operations succeeds at every level and the final bundle's deref yields
the root's current value. -/
theorem nest_upgrade_chain_all_owners_alive (n : Nat) (v : Int) (h : RcHeap)
    (hn : 1 ≤ n)
    (hval : ∀ i, i < n → (h i).value = (mkRcHeap n v i).value)
    (hstrong : ∀ i, i < n → 1 ≤ (h i).strong) :
    (upgradeRun n h).isOk = true ∧
    (upgradeRun n h).readv = some (.int v) ∧
    (∀ c hh, nest_upgrade_arc c hh = RcChain.nest_upgrade c hh) := by
  have hread : (upgradeRun n h).readv = some (.int v) := by
    unfold upgradeRun
    have hm : n - 1 < n := by omega
    have hsm : ¬ (h (n - 1)).strong = 0 := by
      have := hstrong (n - 1) hm; omega
    have hstep : RcChain.nest_upgrade (.bareWeak (n - 1)) h =
        .ok (.link ⟨n - 1⟩ (.bareWeak (n - 1)))
          (hupdate h (n - 1) { h (n - 1) with strong := (h (n - 1)).strong + 1 }) := by
      simp [RcChain.nest_upgrade, RcChain.targetAlloc, upgradeWeak, hsm, RcChain.ofNested]
    rw [hstep]
    have hval1 : ∀ i, i < n →
        ((hupdate h (n - 1) { h (n - 1) with strong := (h (n - 1)).strong + 1 }) i).value =
        (mkRcHeap n v i).value := by
      intro i hi
      by_cases hieq : i = n - 1
      · subst hieq; rw [hupdate_same]; exact hval (n - 1) hi
      · rw [hupdate_other _ _ _ _ hieq]; exact hval i hi
    have hstrong1 : ∀ i, i < n →
        1 ≤ ((hupdate h (n - 1) { h (n - 1) with strong := (h (n - 1)).strong + 1 }) i).strong := by
      intro i hi
      by_cases hieq : i = n - 1
      · subst hieq; rw [hupdate_same]; simp
      · rw [hupdate_other _ _ _ _ hieq]; exact hstrong i hi
    have hres := iterNestUpgrade_invariant n v (n - 1) (n - 1)
      (.link ⟨n - 1⟩ (.bareWeak (n - 1))) _ ⟨n - 1⟩ rfl rfl hval1 hstrong1
      (by omega) (by omega)
    rw [hres]
    simp [mkRcHeap_zero]
  exact ⟨RcNestResult.isOk_of_readv hread, hread,
    fun c hh => rfl⟩

/-- Witness for `nest_upgrade_chain_all_owners_alive` on the canonical 3-chain
with root value 5. -/
theorem nest_upgrade_chain_all_owners_alive_witness :
    (upgradeRun 3 (mkRcHeap 3 5)).isOk = true ∧
    (upgradeRun 3 (mkRcHeap 3 5)).readv = some (.int 5) ∧
    (∀ c hh, nest_upgrade_arc c hh = RcChain.nest_upgrade c hh) :=
  nest_upgrade_chain_all_owners_alive 3 5 (mkRcHeap 3 5) (by decide)
    (by decide) (by decide)

/-- C3: `nest_upgrade` yields the empty outcome exactly when the target's
strong count has reached zero, with the heap returned unchanged and no stale
value; otherwise it returns a bundle whose view is the new strong handle and
whose owner is the original weak reference.  Once an upgrade in a chain is
empty, every subsequent composition stays empty, and in particular releasing
the root owner partway through a 3-chain makes the upgrade at the point of
release yield the empty outcome. -/
theorem nest_upgrade_none_iff_destroyed (a : Nat) (h : RcHeap) :
    (RcChain.nest_upgrade (.bareWeak a) h = .dead h ↔ (h a).strong = 0) ∧
    ((h a).strong ≠ 0 →
      RcChain.nest_upgrade (.bareWeak a) h =
        .ok (.link ⟨a⟩ (.bareWeak a))
          (hupdate h a { h a with strong := (h a).strong + 1 })) ∧
    (∀ k h1, iterNestUpgrade k (.dead h1) = .dead h1) ∧
    releaseMidScenario.isOk = false ∧ releaseMidScenario.readv = none := by
  refine ⟨?_, ?_, ?_, by decide, by decide⟩
  · by_cases hs : (h a).strong = 0
    · simp [RcChain.nest_upgrade, RcChain.targetAlloc, upgradeWeak, hs, RcChain.drop]
    · simp [RcChain.nest_upgrade, RcChain.targetAlloc, upgradeWeak, hs, RcChain.ofNested]
  · intro hs
    simp [RcChain.nest_upgrade, RcChain.targetAlloc, upgradeWeak, hs, RcChain.ofNested]
  · intro k h1
    cases k <;> simp [iterNestUpgrade]

/-- Witness for `nest_upgrade_none_iff_destroyed`: the empty outcome on a dead
target, and a bundle on a living one. -/
theorem nest_upgrade_none_iff_destroyed_witness :
    RcChain.nest_upgrade (.bareWeak 1) brokenRcHeap = .dead brokenRcHeap ∧
    RcChain.nest_upgrade (.bareWeak 0) brokenRcHeap =
      .ok (.link ⟨0⟩ (.bareWeak 0))
        (hupdate brokenRcHeap 0 { brokenRcHeap 0 with strong := (brokenRcHeap 0).strong + 1 }) :=
  ⟨(nest_upgrade_none_iff_destroyed 1 brokenRcHeap).1.mpr (by decide),
   (nest_upgrade_none_iff_destroyed 0 brokenRcHeap).2.1 (by decide)⟩

/-- C6: after a holder terminated abnormally while holding the lock, the
acquires (`nest_lock`, `nest_try_lock`, `nest_try_read`, `nest_try_write`)
still acquire it and return a poison-flagged result whose payload is the full
nested bundle (new view plus the consumed receiver as owner), and the value
reachable through that payload is the value last written by the failed
holder; recovery is the caller's explicit unwrapping of the flag. -/
theorem poisoned_lock_acquire_usable_bundle (h : MutexHeap) (a : Nat) (v : Int)
    (hr : RwHeap) (b : Nat) (w : Int) (hrd : (hr b).readers = 0) :
    (MutexChain.nest_lock (.bareMutex a) (mutexAfterPanic h a (.int v)) =
      .poisonedR (.link ⟨a⟩ (.bareMutex a))
        (hupdate (mutexAfterPanic h a (.int v)) a
          { mutexAfterPanic h a (.int v) a with locked := true })) ∧
    (MutexChain.nest_try_lock (.bareMutex a) (mutexAfterPanic h a (.int v)) =
      .poisonedR (.link ⟨a⟩ (.bareMutex a))
        (hupdate (mutexAfterPanic h a (.int v)) a
          { mutexAfterPanic h a (.int v) a with locked := true })) ∧
    ((MutexChain.nest_lock (.bareMutex a) (mutexAfterPanic h a (.int v))).readv =
      some (.int v)) ∧
    ((MutexChain.nest_try_lock (.bareMutex a) (mutexAfterPanic h a (.int v))).readv =
      some (.int v)) ∧
    ((RwChain.nest_try_read (.bareRw b) (rwAfterPanic hr b (.int w))).readv =
      some (.int w)) ∧
    (RwChain.nest_try_read (.bareRw b) (rwAfterPanic hr b (.int w)) =
      .poisonedR (.link ⟨b, false⟩ (.bareRw b))
        (hupdate (rwAfterPanic hr b (.int w)) b
          { rwAfterPanic hr b (.int w) b with
              readers := (rwAfterPanic hr b (.int w) b).readers + 1 })) ∧
    ((RwChain.nest_try_write (.bareRw b) (rwAfterPanic hr b (.int w))).readv =
      some (.int w)) ∧
    (RwChain.nest_try_write (.bareRw b) (rwAfterPanic hr b (.int w)) =
      .poisonedR (.link ⟨b, true⟩ (.bareRw b))
        (hupdate (rwAfterPanic hr b (.int w)) b
          { rwAfterPanic hr b (.int w) b with writer := true })) := by
  have hm := mutexAfterPanic_at h a (.int v)
  have hw := rwAfterPanic_at hr b (.int w)
  have hmlock : MutexChain.nest_lock (.bareMutex a) (mutexAfterPanic h a (.int v)) =
      .poisonedR (.link ⟨a⟩ (.bareMutex a))
        (hupdate (mutexAfterPanic h a (.int v)) a
          { mutexAfterPanic h a (.int v) a with locked := true }) := by
    simp [MutexChain.nest_lock, MutexChain.targetMutex, hm, MutexChain.ofNested]
  have hmtry : MutexChain.nest_try_lock (.bareMutex a) (mutexAfterPanic h a (.int v)) =
      .poisonedR (.link ⟨a⟩ (.bareMutex a))
        (hupdate (mutexAfterPanic h a (.int v)) a
          { mutexAfterPanic h a (.int v) a with locked := true }) := by
    simp [MutexChain.nest_try_lock, MutexChain.targetMutex, hm, MutexChain.ofNested]
  have hrread : RwChain.nest_try_read (.bareRw b) (rwAfterPanic hr b (.int w)) =
      .poisonedR (.link ⟨b, false⟩ (.bareRw b))
        (hupdate (rwAfterPanic hr b (.int w)) b
          { rwAfterPanic hr b (.int w) b with
              readers := (rwAfterPanic hr b (.int w) b).readers + 1 }) := by
    simp [RwChain.nest_try_read, RwChain.targetRw, hw, RwChain.ofNested]
  have hrwrite : RwChain.nest_try_write (.bareRw b) (rwAfterPanic hr b (.int w)) =
      .poisonedR (.link ⟨b, true⟩ (.bareRw b))
        (hupdate (rwAfterPanic hr b (.int w)) b
          { rwAfterPanic hr b (.int w) b with writer := true }) := by
    simp [RwChain.nest_try_write, RwChain.targetRw, hw, hrd, RwChain.ofNested]
  refine ⟨hmlock, hmtry, ?_, ?_, ?_, hrread, ?_, hrwrite⟩
  · rw [hmlock]
    simp [MutexNestResult.readv, MutexChain.readv, hupdate_same, hm]
  · rw [hmtry]
    simp [MutexNestResult.readv, MutexChain.readv, hupdate_same, hm]
  · rw [hrread]
    simp [RwNestResult.readv, RwChain.readv, hupdate_same, hw]
  · rw [hrwrite]
    simp [RwNestResult.readv, RwChain.readv, hupdate_same, hw]

/-- Witness for `poisoned_lock_acquire_usable_bundle` on concrete heaps. -/
theorem poisoned_lock_acquire_usable_bundle_witness :
    ((MutexChain.nest_lock (.bareMutex 0) (mutexAfterPanic quietMutexHeap 0 (.int 11))).readv =
      some (.int 11)) ∧
    ((RwChain.nest_try_write (.bareRw 0) (rwAfterPanic quietRwHeap 0 (.int 12))).readv =
      some (.int 12)) :=
  ⟨(poisoned_lock_acquire_usable_bundle quietMutexHeap 0 11 quietRwHeap 0 12
      (by decide)).2.2.1,
   (poisoned_lock_acquire_usable_bundle quietMutexHeap 0 11 quietRwHeap 0 12
      (by decide)).2.2.2.2.2.2.1⟩

/-- C7: a non-blocking acquire on a lock held incompatibly by another holder
returns `WouldBlock` immediately with the heap unchanged (it never suspends
and never changes the lock's internal state), and the outcome is recoverable:
once the holder releases the lock, a retry succeeds. -/
theorem nonblocking_acquire_wouldblock (h : MutexHeap) (a : Nat)
    (hr : RwHeap) (b : Nat) :
    ((h a).locked = true →
      MutexChain.nest_try_lock (.bareMutex a) h = .wouldBlock h) ∧
    ((hr b).writer = true →
      RwChain.nest_try_read (.bareRw b) hr = .wouldBlock hr ∧
      RwChain.nest_try_write (.bareRw b) hr = .wouldBlock hr) ∧
    (0 < (hr b).readers →
      RwChain.nest_try_write (.bareRw b) hr = .wouldBlock hr) ∧
    ((h a).locked = true → (h a).poisoned = false →
      MutexChain.nest_try_lock (.bareMutex a) (MutexGuard.drop ⟨a⟩ h) =
        .ok (.link ⟨a⟩ (.bareMutex a))
          (hupdate (MutexGuard.drop ⟨a⟩ h) a
            { MutexGuard.drop ⟨a⟩ h a with locked := true })) := by
  refine ⟨?_, ?_, ?_, ?_⟩
  · intro hl
    simp [MutexChain.nest_try_lock, MutexChain.targetMutex, hl, MutexChain.drop]
  · intro hwr
    constructor
    · simp [RwChain.nest_try_read, RwChain.targetRw, hwr, RwChain.drop]
    · simp [RwChain.nest_try_write, RwChain.targetRw, hwr, RwChain.drop]
  · intro hrd
    simp [RwChain.nest_try_write, RwChain.targetRw, hrd, RwChain.drop]
  · intro _ hp
    have hdrop : MutexGuard.drop ⟨a⟩ h a = { h a with locked := false } := by
      simp [MutexGuard.drop, hupdate_same]
    simp [MutexChain.nest_try_lock, MutexChain.targetMutex, hdrop, hp,
      MutexChain.ofNested]

/-- Witness for `nonblocking_acquire_wouldblock` on concrete held locks. -/
theorem nonblocking_acquire_wouldblock_witness :
    MutexChain.nest_try_lock (.bareMutex 0) heldMutexHeap = .wouldBlock heldMutexHeap ∧
    RwChain.nest_try_read (.bareRw 0) heldRwHeap = .wouldBlock heldRwHeap ∧
    RwChain.nest_try_write (.bareRw 1) heldRwHeap = .wouldBlock heldRwHeap :=
  ⟨(nonblocking_acquire_wouldblock heldMutexHeap 0 heldRwHeap 0).1 (by decide),
   ((nonblocking_acquire_wouldblock heldMutexHeap 0 heldRwHeap 0).2.1 (by decide)).1,
   (nonblocking_acquire_wouldblock heldMutexHeap 0 heldRwHeap 1).2.2.1 (by decide)⟩

/-- C8: a bundle is-a view: dereferencing a `Nested` bundle (shared or, when
the inner view permits it, mutable) yields exactly the access obtained by
dereferencing the inner view directly, generically and in each wrapped
family. -/
theorem bundle_is_a_view :
    (∀ (V O T : Type) (dv : V → T) (n : Nested V O), n.derefVia dv = dv n.inner) ∧
    (∀ (V O T : Type) (dmv : V → T) (n : Nested V O), n.derefMutVia dmv = dmv n.inner) ∧
    (∀ (b : Nested CellRef CellChain) (h : CellHeap),
      (CellChain.ofNested b).readv h = some (b.inner.read h)) ∧
    (∀ (b : Nested CellRef CellChain) (v : CVal) (h : CellHeap),
      (CellChain.ofNested b).writev v h = b.inner.write v h) ∧
    (∀ (b : Nested Rc RcChain) (h : RcHeap),
      (RcChain.ofNested b).readv h = some ((h b.inner.alloc).value)) ∧
    (∀ (b : Nested MutexGuard MutexChain) (h : MutexHeap),
      (MutexChain.ofNested b).readv h = some ((h b.inner.cell).contents)) ∧
    (∀ (b : Nested RwGuard RwChain) (h : RwHeap),
      (RwChain.ofNested b).readv h = some ((h b.inner.cell).contents)) :=
  ⟨fun _ _ _ _ _ => rfl, fun _ _ _ _ _ => rfl, fun _ _ => rfl, fun _ _ _ => rfl,
   fun _ _ => rfl, fun _ _ => rfl, fun _ _ => rfl⟩

/-- C9: on destruction of a bundle the view is destroyed first, before the
owner is released, recursively at every link: the view of the link at depth
`k` is destroyed at time `k`, and every destruction belonging to that link's
owner happens at a strictly later time; moreover in every wrapped family the
heap effect of dropping a bundle applies the view's release before the
owner's. -/
theorem view_destroyed_before_owner :
    (∀ (c : OwnerChain) (k v : Nat) (o : OwnerChain),
      c.subOwner k = some (.link v o) →
      c.dropTrace[k]? = some v ∧
      ∀ j : Nat, o.dropTrace[j]? = c.dropTrace[k + 1 + j]?) ∧
    (∀ (b : Nested CellRef CellChain) (h : CellHeap),
      (CellChain.ofNested b).drop h = b.outer.drop (b.inner.drop h)) ∧
    (∀ (b : Nested Rc RcChain) (h : RcHeap),
      (RcChain.ofNested b).drop h = b.outer.drop (b.inner.drop h)) ∧
    (∀ (b : Nested MutexGuard MutexChain) (h : MutexHeap),
      (MutexChain.ofNested b).drop h = b.outer.drop (b.inner.drop h)) ∧
    (∀ (b : Nested RwGuard RwChain) (h : RwHeap),
      (RwChain.ofNested b).drop h = b.outer.drop (b.inner.drop h)) := by
  refine ⟨?_, fun _ _ => rfl, fun _ _ => rfl, fun _ _ => rfl, fun _ _ => rfl⟩
  intro c k
  induction k generalizing c with
  | zero =>
    intro v o hso
    cases c with
    | base i => simp [OwnerChain.subOwner] at hso
    | link v0 outer =>
      simp only [OwnerChain.subOwner, Option.some.injEq, OwnerChain.link.injEq] at hso
      obtain ⟨hv, ho⟩ := hso
      subst hv
      subst ho
      refine ⟨by simp [OwnerChain.dropTrace], ?_⟩
      intro j
      have harith : 0 + 1 + j = j + 1 := by omega
      rw [harith]
      simp [OwnerChain.dropTrace]
  | succ k ih =>
    intro v o hso
    cases c with
    | base i => simp [OwnerChain.subOwner] at hso
    | link v0 outer =>
      have hso' : outer.subOwner k = some (.link v o) := hso
      obtain ⟨h1, h2⟩ := ih outer v o hso'
      constructor
      · show (v0 :: outer.dropTrace)[k + 1]? = some v
        simpa using h1
      · intro j
        have harith : k + 1 + 1 + j = (k + 1 + j) + 1 := by omega
        rw [harith]
        show o.dropTrace[j]? = (v0 :: outer.dropTrace)[(k + 1 + j) + 1]?
        simpa using h2 j

/-- Witness for `view_destroyed_before_owner` on a three-link chain at depth
one. -/
theorem view_destroyed_before_owner_witness :
    (OwnerChain.link 10 (.link 11 (.base 12))).dropTrace[1]? = some 11 ∧
    ∀ j : Nat, (OwnerChain.base 12).dropTrace[j]? =
      (OwnerChain.link 10 (.link 11 (.base 12))).dropTrace[1 + 1 + j]? :=
  view_destroyed_before_owner.1 (.link 10 (.link 11 (.base 12))) 1 11 (.base 12) (by decide)

/-- C10: every composition operation consumes its receiver by value; on each
failure outcome that embeds no bundle (`WouldBlock`, the empty upgrade, the
borrow errors) the consumed receiver — its whole owner chain, guards and
strong handles included — is dropped before the operation returns, so the
outcome carries the post-drop heap and no handle to retry with; only the
poisoned outcome hands the receiver back inside the error's payload bundle.
The concrete conjuncts exhibit the receiver's own guard, reader registration,
strong count and borrow flag being released in the returned heap. -/
theorem failure_outcomes_drop_receiver :
    (∀ (self : MutexChain) (h : MutexHeap) (b : Nat),
      self.targetMutex h = some b → (h b).locked = true →
      self.nest_try_lock h = .wouldBlock (self.drop h)) ∧
    (∀ (self : RwChain) (h : RwHeap) (b : Nat),
      self.targetRw h = some b → (h b).writer = true →
      self.nest_try_read h = .wouldBlock (self.drop h) ∧
      self.nest_try_write h = .wouldBlock (self.drop h)) ∧
    (∀ (self : RcChain) (h : RcHeap) (b : Nat),
      self.targetAlloc h = some b → (h b).strong = 0 →
      self.nest_upgrade h = .dead (self.drop h)) ∧
    (∀ (self : CellChain) (h : CellHeap) (b : Nat),
      self.targetCell h = some b → (h b).borrowFlag < 0 →
      self.nest_try_borrow h = .err .mk (self.drop h) ∧
      self.nest_try_borrow_mut h = .err .mk (self.drop h)) ∧
    (∀ (self : MutexChain) (h : MutexHeap) (b : Nat),
      self.targetMutex h = some b → (h b).locked = false → (h b).poisoned = true →
      self.nest_try_lock h =
        .poisonedR (.link ⟨b⟩ self) (hupdate h b { h b with locked := true })) ∧
    ((MutexChain.nest_try_lock (.link ⟨1⟩ (.bareMutex 1)) c10MutexHeap).wouldBlockHeapAt 1 =
      some ⟨false, false, .mutexRef 0⟩) ∧
    ((RwChain.nest_try_read (.link ⟨1, false⟩ (.bareRw 1)) c10RwHeap).wouldBlockHeapAt 1 =
      some ⟨0, false, false, .rwRef 0⟩) ∧
    ((RcChain.nest_upgrade (.link ⟨1⟩ (.bareWeak 1)) c10RcHeap).deadHeapAt 1 =
      some ⟨1, .weakRef 0⟩) ∧
    ((CellChain.nest_try_borrow (.link ⟨1, false⟩ (.bareCell 1)) c10CellHeap).errHeapAt 1 =
      some ⟨0, .cellRef 0⟩) := by
  refine ⟨?_, ?_, ?_, ?_, ?_, by decide, by decide, by decide, by decide⟩
  · intro self h b htgt hl
    simp [MutexChain.nest_try_lock, htgt, hl]
  · intro self h b htgt hwr
    constructor
    · simp [RwChain.nest_try_read, htgt, hwr]
    · simp [RwChain.nest_try_write, htgt, hwr]
  · intro self h b htgt hs
    simp [RcChain.nest_upgrade, htgt, upgradeWeak, hs]
  · intro self h b htgt hf
    have hf' : (h b).borrowFlag ≠ 0 := by omega
    constructor
    · simp [CellChain.nest_try_borrow, htgt, tryBorrowCell, hf]
    · simp [CellChain.nest_try_borrow_mut, htgt, tryBorrowMutCell, hf']
  · intro self h b htgt hl hp
    simp [MutexChain.nest_try_lock, htgt, hl, hp, MutexChain.ofNested]

/-- Witness for `failure_outcomes_drop_receiver`: the mutex, upgrade and
borrow failure arms applied on the concrete heaps. -/
theorem failure_outcomes_drop_receiver_witness :
    MutexChain.nest_try_lock (.link ⟨1⟩ (.bareMutex 1)) c10MutexHeap =
      .wouldBlock (MutexChain.drop (.link ⟨1⟩ (.bareMutex 1)) c10MutexHeap) ∧
    RcChain.nest_upgrade (.link ⟨1⟩ (.bareWeak 1)) c10RcHeap =
      .dead (RcChain.drop (.link ⟨1⟩ (.bareWeak 1)) c10RcHeap) ∧
    CellChain.nest_try_borrow (.link ⟨1, false⟩ (.bareCell 1)) c10CellHeap =
      .err .mk (CellChain.drop (.link ⟨1, false⟩ (.bareCell 1)) c10CellHeap) :=
  ⟨failure_outcomes_drop_receiver.1 (.link ⟨1⟩ (.bareMutex 1)) c10MutexHeap 0
      (by decide) (by decide),
   failure_outcomes_drop_receiver.2.2.1 (.link ⟨1⟩ (.bareWeak 1)) c10RcHeap 0
      (by decide) (by decide),
   (failure_outcomes_drop_receiver.2.2.2.1 (.link ⟨1, false⟩ (.bareCell 1)) c10CellHeap 0
      (by decide) (by decide)).1⟩
